import Mathlib

/-!
# Verification of the Dagger guided-continuation search (Project-Gambit)

Shallow embedding of `src/Objects/Dagger.py`.  The pandas DataFrame
`self.games` (one row per archived half-move, default `RangeIndex`
`0..N-1`) is embedded as a `List Row` in archive order; row `i` of the
list is the row with index label `i`.  Python floats are modelled as
rationals (`Rat`): the claims under scrutiny concern the algebraic
structure of the cost and the selection/ordering policy, not IEEE
rounding.  Exceptions raised by library calls (`heapq.heappop` on an
empty queue, `.iloc[0]` on an empty frame, `np.argmax` on an empty
array) are modelled as explicit error values.
-/

/-- One archive row (a Position Record): columns of the games table read
by `Dagger` (`game_id`, `ply`, `board_sum`, `centipawn_evaluation`,
`pgn`). -/
structure Row where
  game_id : Int
  ply : Int
  board_sum : Int
  centipawn_evaluation : Rat
  pgn : String
deriving DecidableEq, Repr

/-- Placeholder row for total indexing (`List.getD`); every access is
guarded by an in-bounds proof in the theorems below. -/
def defaultRow : Row := ⟨0, 0, 0, 0, ""⟩

/-- One position of the user's parsed game, as read by
`find_best_learning_moment`: `position.bitboard_integers` and
`position.centipawn` (which may be `None`, hence `Option`). -/
structure Position where
  bitboard_integers : Int
  centipawn : Option Int
deriving DecidableEq, Repr

def defaultPosition : Position := ⟨0, none⟩

/-- The failure modes of the session, named as in the spec's taxonomy.
In the Python code each one surfaces as a library exception:
`NoCandidates` is `heapq.heappop` raising `IndexError` on an empty
queue, `ContinuationExhausted` is `.iloc[0]` raising `IndexError` on an
empty successor frame, `InsufficientHistory` is `np.argmax` raising
`ValueError` on an empty array. -/
inductive SearchError where
  | NoCandidates
  | ContinuationExhausted
  | InsufficientHistory
deriving DecidableEq, Repr

/-- Embedding of `np.mean` on a list of rationals: sum divided by length.  (`np.mean`
of an empty slice is NaN; in `loss_function` the slice is never empty
because the start index is always a valid archive position.) -/
def npMean (l : List Rat) : Rat :=
  l.foldl (· + ·) 0 / (l.length : Rat)

/-- Embedding of `self.games.loc[start_idx : start_idx + depth - 1, "centipawn_evaluation"]`:
pandas label slicing on the RangeIndex is inclusive of both endpoints
and truncates at the end of the frame, i.e. rows
`start_idx .. min (start_idx + depth - 1) (N - 1)`. -/
def predValues (games : List Row) (start_idx depth : Nat) : List Rat :=
  ((games.drop start_idx).take depth).map (fun r => r.centipawn_evaluation)

/-- Embedding of `Dagger.loss_function`.  The `row` argument contributes only
`row.name` (= `start_idx`): after `reset_index(drop=True)` in
`dijkstra_search` this is the row's position within the *filtered*
frame.  `pred = np.mean(pred_values) * (1 if user_preference != "black" else -1)`;
`return (pred - user_centipawn)**2 / depth + lambda_reg * pred**2`. -/
def loss_function (games : List Row) (user_preference : String)
    (user_centipawn lambda_reg : Rat) (start_idx : Nat) (depth : Nat) : Rat :=
  let pred := npMean (predValues games start_idx depth) *
      (if user_preference ≠ "black" then 1 else -1)
  (pred - user_centipawn) ^ 2 / (depth : Rat) + lambda_reg * pred ^ 2

/-- Modelled from the spec's words, for comparison with `loss_function`
(`spec.md` §4.3): the mean evaluation across the `lookahead` consecutive
archive rows *immediately following* `candidate_start_index` (only the
rows that exist when the candidate is near the archive's end), negated
if `preference` favors the opposing side; cost
`(mean - target)² / lookahead + λ·mean²`. -/
def specCost (games : List Row) (preference : String)
    (target lambda_reg : Rat) (candidate_start_index : Nat) (lookahead : Nat) : Rat :=
  let mean0 := npMean (((games.drop (candidate_start_index + 1)).take lookahead).map
      (fun r => r.centipawn_evaluation))
  let mean := if preference = "black" then -mean0 else mean0
  (mean - target) ^ 2 / (lookahead : Rat) + lambda_reg * mean ^ 2

/-- Embedding of `self.games[self.games["board_sum"] == current_board_sum]`: boolean
filtering preserves the original archive order. -/
def filterGames (games : List Row) (current_board_sum : Int) : List Row :=
  games.filter (fun r => r.board_sum == current_board_sum)

/-- Embedding of `filtered_games.apply(lambda row: self.loss_function(row), axis=1)`:
after `reset_index(drop=True)` the row at filtered position `i` has
`row.name = i`, and `loss_function` reads nothing else from the row, so
the cost series is `loss_function` evaluated at `0, 1, …, m-1` (with the
default `depth = 10`). -/
def roundCosts (games : List Row) (user_preference : String)
    (user_centipawn lambda_reg : Rat) (filtered : List Row) : List Rat :=
  (List.range filtered.length).map
    (fun i => loss_function games user_preference user_centipawn lambda_reg i 10)

/-- Embedding of `queue = list(zip(costs, filtered_games.index)); heapq.heapify(queue);
heapq.heappop(queue)[1]`: the pop returns the least `(cost, index)`
tuple under Python's lexicographic tuple order.  Since the indices
`0..m-1` are distinct, that least tuple is the *first* index attaining
the minimal cost (on cost ties the smaller index wins).  `none` models
`heappop` raising `IndexError` on the empty queue. -/
def heapSelect : List Rat → Option Nat
  | [] => none
  | c :: cs =>
    match heapSelect cs with
    | none => some 0
    | some j => if cs.getD j 0 < c then some (j + 1) else some 0

/-- One recorded result entry: the code stores
`{"parser": Parser(best_move["pgn"], False), "ply": best_move["ply"]}`;
the `Parser` object is fully determined by the `pgn` text. -/
structure RoundResult where
  pgn : String
  ply : Int
deriving DecidableEq, Repr

def mkResult (r : Row) : RoundResult := ⟨r.pgn, r.ply⟩

/-- Embedding of the successor lookup `self.games[(self.games["ply"] == best_move["ply"] + 1) & (self.games["game_id"] == best_move["game_id"])]["board_sum"].iloc[0]`:
the `board_sum` of the first row matching the successor key, `none` when
no such row exists (`IndexError`). -/
def advance (games : List Row) (best_move : Row) : Option Int :=
  ((games.filter (fun r => r.ply == best_move.ply + 1 && r.game_id == best_move.game_id)).map
    (fun r => r.board_sum)).head?

/-- The `for run in range(5)` loop of `Dagger.dijkstra_search`, as a
recursion on the number of remaining rounds.  Returns the games table as
held by the object at the end of the session (no statement in the loop
assigns to `self.games`; every pandas operation used returns a fresh
object), the recorded results in round order, and the terminating error
if the session stopped early.  Note the successor lookup (`Advance`)
runs inside the loop body even in the fifth round. -/
def searchLoop (games : List Row) (user_preference : String)
    (user_centipawn lambda_reg : Rat) :
    Nat → Int → List RoundResult → List Row × List RoundResult × Option SearchError
  | 0, _, acc => (games, acc, none)
  | n + 1, current_board_sum, acc =>
    let filtered := filterGames games current_board_sum
    match heapSelect (roundCosts games user_preference user_centipawn lambda_reg filtered) with
    | none => (games, acc, some SearchError.NoCandidates)
    | some i =>
      let best_move := filtered.getD i defaultRow
      let acc' := acc ++ [mkResult best_move]
      match advance games best_move with
      | none => (games, acc', some SearchError.ContinuationExhausted)
      | some bs' => searchLoop games user_preference user_centipawn lambda_reg n bs' acc'

/-- Embedding of `Dagger.dijkstra_search`: five rounds starting from the user's board
sum, with an initially empty result collection. -/
def dijkstra_search (games : List Row) (user_preference : String)
    (user_centipawn lambda_reg : Rat) (user_board_sum : Int) :
    List Row × List RoundResult × Option SearchError :=
  searchLoop games user_preference user_centipawn lambda_reg 5 user_board_sum []

/-- Embedding of `position.centipawn if position.centipawn else 0`: `None` (and the
falsy value `0`) becomes `0`. -/
def cpOrZero (p : Position) : Int :=
  match p.centipawn with
  | some c => c
  | none => 0

/-- Embedding of `np.abs(np.diff(vals))`: absolute successive differences. -/
def absDiffs : List Int → List Int
  | [] => []
  | [_] => []
  | a :: b :: rest => |b - a| :: absDiffs (b :: rest)

/-- Embedding of `np.argmax`: index of the maximum value; "in case of multiple
occurrences of the maximum values, the indices corresponding to the
first occurrence are returned".  `none` models the `ValueError` raised
on an empty array. -/
def argmaxFirst : List Int → Option Nat
  | [] => none
  | v :: vs =>
    match argmaxFirst vs with
    | none => some 0
    | some j => if v < vs.getD j 0 then some (j + 1) else some 0

/-- Embedding of `Dagger.find_best_learning_moment`: absolute successive differences
of the (missing-as-zero) centipawn values of the first 12 plies,
`np.argmax` over them, and the `bitboard_integers` / `centipawn` /
index of the position at the winning index. -/
def find_best_learning_moment (positions : List Position) :
    Except SearchError (Int × Option Int × Nat) :=
  let net_changes := absDiffs ((positions.take 12).map cpOrZero)
  match argmaxFirst net_changes with
  | none => Except.error SearchError.InsufficientHistory
  | some best_index =>
    Except.ok ((positions.getD best_index defaultPosition).bitboard_integers,
      (positions.getD best_index defaultPosition).centipawn, best_index)

/-! ## Helper lemmas -/

theorem heapSelect_eq_none_iff (l : List Rat) : heapSelect l = none ↔ l = [] := by
  cases l with
  | nil => simp [heapSelect]
  | cons c cs =>
    simp only [heapSelect]
    constructor
    · intro hcontra
      cases h : heapSelect cs with
      | none => rw [h] at hcontra; simp at hcontra
      | some j =>
        rw [h] at hcontra
        split at hcontra <;>
          first
          | (split at hcontra <;> simp at hcontra)
          | simp at hcontra
    · intro hcontra
      exact absurd hcontra (by simp)

theorem heapSelect_spec (l : List Rat) (i : Nat) (h : heapSelect l = some i) :
    i < l.length ∧ (∀ j, j < l.length → l.getD i 0 ≤ l.getD j 0) ∧
      (∀ j, j < i → l.getD i 0 < l.getD j 0) := by
  induction l generalizing i with
  | nil => simp [heapSelect] at h
  | cons c cs ih =>
    cases hcs : heapSelect cs with
    | none =>
      have hnil : cs = [] := (heapSelect_eq_none_iff cs).mp hcs
      simp only [heapSelect, hcs] at h
      simp only [Option.some.injEq] at h
      subst h
      subst hnil
      refine ⟨by simp, ?_, by omega⟩
      intro j hj
      simp only [List.length_cons, List.length_nil] at hj
      have hj0 : j = 0 := by omega
      subst hj0
      exact le_refl _
    | some j =>
      simp only [heapSelect, hcs] at h
      obtain ⟨hjlen, hmin, hfirst⟩ := ih j hcs
      by_cases hlt : cs.getD j 0 < c
      · rw [if_pos hlt] at h
        simp only [Option.some.injEq] at h
        subst h
        refine ⟨by simpa using Nat.succ_lt_succ hjlen, ?_, ?_⟩
        · intro k hk
          cases k with
          | zero => simpa using le_of_lt hlt
          | succ k' =>
            simp only [List.getD_cons_succ]
            exact hmin k' (by simpa using hk)
        · intro k hk
          cases k with
          | zero => simpa using hlt
          | succ k' =>
            simp only [List.getD_cons_succ]
            exact hfirst k' (by omega)
      · rw [if_neg hlt] at h
        simp only [Option.some.injEq] at h
        subst h
        refine ⟨by simp, ?_, by omega⟩
        intro k hk
        cases k with
        | zero => exact le_refl _
        | succ k' =>
          simp only [List.getD_cons_zero, List.getD_cons_succ]
          exact le_trans (not_lt.mp hlt) (hmin k' (by simpa using hk))

theorem argmaxFirst_eq_none_iff (l : List Int) : argmaxFirst l = none ↔ l = [] := by
  cases l with
  | nil => simp [argmaxFirst]
  | cons v vs =>
    simp only [argmaxFirst]
    constructor
    · intro hcontra
      cases h : argmaxFirst vs with
      | none => rw [h] at hcontra; simp at hcontra
      | some j =>
        rw [h] at hcontra
        split at hcontra <;>
          first
          | (split at hcontra <;> simp at hcontra)
          | simp at hcontra
    · intro hcontra
      exact absurd hcontra (by simp)

theorem argmaxFirst_spec (l : List Int) (i : Nat) (h : argmaxFirst l = some i) :
    i < l.length ∧ (∀ j, j < l.length → l.getD j 0 ≤ l.getD i 0) ∧
      (∀ j, j < i → l.getD j 0 < l.getD i 0) := by
  induction l generalizing i with
  | nil => simp [argmaxFirst] at h
  | cons v vs ih =>
    cases hvs : argmaxFirst vs with
    | none =>
      have hnil : vs = [] := (argmaxFirst_eq_none_iff vs).mp hvs
      simp only [argmaxFirst, hvs] at h
      simp only [Option.some.injEq] at h
      subst h
      subst hnil
      refine ⟨by simp, ?_, by omega⟩
      intro j hj
      simp only [List.length_cons, List.length_nil] at hj
      have hj0 : j = 0 := by omega
      subst hj0
      exact le_refl _
    | some j =>
      simp only [argmaxFirst, hvs] at h
      obtain ⟨hjlen, hmax, hfirst⟩ := ih j hvs
      by_cases hlt : v < vs.getD j 0
      · rw [if_pos hlt] at h
        simp only [Option.some.injEq] at h
        subst h
        refine ⟨by simpa using Nat.succ_lt_succ hjlen, ?_, ?_⟩
        · intro k hk
          cases k with
          | zero => simpa using le_of_lt hlt
          | succ k' =>
            simp only [List.getD_cons_succ]
            exact hmax k' (by simpa using hk)
        · intro k hk
          cases k with
          | zero => simpa using hlt
          | succ k' =>
            simp only [List.getD_cons_succ]
            exact hfirst k' (by omega)
      · rw [if_neg hlt] at h
        simp only [Option.some.injEq] at h
        subst h
        refine ⟨by simp, ?_, by omega⟩
        intro k hk
        cases k with
        | zero => exact le_refl _
        | succ k' =>
          simp only [List.getD_cons_zero, List.getD_cons_succ]
          exact le_trans (hmax k' (by simpa using hk)) (not_lt.mp hlt)

theorem roundCosts_length (games : List Row) (p : String) (cp lam : Rat)
    (filtered : List Row) : (roundCosts games p cp lam filtered).length = filtered.length := by
  simp [roundCosts]

theorem roundCosts_getD (games : List Row) (p : String) (cp lam : Rat)
    (filtered : List Row) (j : Nat) (hj : j < filtered.length) :
    (roundCosts games p cp lam filtered).getD j 0 = loss_function games p cp lam j 10 := by
  rw [roundCosts, List.getD_eq_getElem?_getD, List.getElem?_map]
  rw [List.getElem?_range hj]
  simp

theorem absDiffs_length (l : List Int) : (absDiffs l).length = l.length - 1 := by
  induction l with
  | nil => simp [absDiffs]
  | cons a t ih =>
    cases t with
    | nil => simp [absDiffs]
    | cons b rest =>
      simp only [absDiffs, List.length_cons] at ih ⊢
      omega

theorem absDiffs_getD (l : List Int) (j : Nat) (hj : j + 1 < l.length) :
    (absDiffs l).getD j 0 = |l.getD (j + 1) 0 - l.getD j 0| := by
  induction l generalizing j with
  | nil => simp at hj
  | cons a t ih =>
    cases t with
    | nil => simp at hj
    | cons b rest =>
      cases j with
      | zero => simp [absDiffs]
      | succ j' =>
        simp only [absDiffs, List.getD_cons_succ]
        exact ih j' (by simpa using hj)

/-! ## Concrete archives used as failing inputs, counterexamples and witnesses -/

/-- Archive of one 16-ply game; the row at archive position 5 carries the
unique board sum 99 and centipawn evaluation `i` at position `i`. -/
def archA : List Row :=
  [⟨1, 0, 0, 0, ""⟩, ⟨1, 1, 1, 1, ""⟩, ⟨1, 2, 2, 2, ""⟩, ⟨1, 3, 3, 3, ""⟩,
   ⟨1, 4, 4, 4, ""⟩, ⟨1, 5, 99, 5, ""⟩, ⟨1, 6, 6, 6, ""⟩, ⟨1, 7, 7, 7, ""⟩,
   ⟨1, 8, 8, 8, ""⟩, ⟨1, 9, 9, 9, ""⟩, ⟨1, 10, 10, 10, ""⟩, ⟨1, 11, 11, 11, ""⟩,
   ⟨1, 12, 12, 12, ""⟩, ⟨1, 13, 13, 13, ""⟩, ⟨1, 14, 14, 14, ""⟩, ⟨1, 15, 15, 15, ""⟩]

/-- Archive of one 5-ply game with distinct board sums `100 + ply`. -/
def archB : List Row :=
  [⟨1, 0, 100, 0, "g"⟩, ⟨1, 1, 101, 0, "g"⟩, ⟨1, 2, 102, 0, "g"⟩,
   ⟨1, 3, 103, 0, "g"⟩, ⟨1, 4, 104, 0, "g"⟩]

/-- Archive of one 12-ply game; the row at archive position 8 carries the
unique board sum 77; evaluations are 0 on positions 0–7 and 40 on 8–11. -/
def archC : List Row :=
  [⟨1, 0, 0, 0, ""⟩, ⟨1, 1, 1, 0, ""⟩, ⟨1, 2, 2, 0, ""⟩, ⟨1, 3, 3, 0, ""⟩,
   ⟨1, 4, 4, 0, ""⟩, ⟨1, 5, 5, 0, ""⟩, ⟨1, 6, 6, 0, ""⟩, ⟨1, 7, 7, 0, ""⟩,
   ⟨1, 8, 77, 40, ""⟩, ⟨1, 9, 9, 40, ""⟩, ⟨1, 10, 10, 40, ""⟩, ⟨1, 11, 11, 40, ""⟩]

/-! ## Claim theorems -/

/-- Claim C1 (code bug, evaluated at the failing input): in `archA` the only
row matching board sum 99 sits at archive position 5, so its position in the
filtered frame is 0.  `loss_function` scores it from `start_idx = 0` (the
filtered position, because `dijkstra_search` calls `reset_index(drop=True)`)
and moreover starts the slice *at* that index, so it averages archive rows
0–9 (mean 9/2, cost 891/400) instead of the ten rows immediately following
archive position 5 as the claim states (mean 21/2, cost 4851/400). -/
theorem claim1_cost_window_bug :
    filterGames archA 99 = [⟨1, 5, 99, 5, ""⟩] ∧
    loss_function archA ("white") 0 (1/100) 0 10 = 891/400 ∧
    specCost archA ("white") 0 (1/100) 5 10 = 4851/400 ∧
    loss_function archA ("white") 0 (1/100) 0 10 ≠ specCost archA ("white") 0 (1/100) 5 10 := by
  refine ⟨by decide, ?_, ?_, ?_⟩
  · norm_num [loss_function, npMean, predValues, archA]
  · norm_num [specCost, npMean, archA]
  · norm_num [loss_function, specCost, npMean, predValues, archA]

/-- Claim C8 (code bug, evaluated at the failing input): in `archC` the only
row matching board sum 77 is the row at archive position 8, within
`lookahead - 1` rows of the end.  The slice the code takes does truncate at
the archive end and never reads out of bounds (`predValues archC 8 10` has
the 4 available rows), but the mean the code actually uses for this
candidate is taken from `start_idx = 0`, its position in the filtered frame
(cost 176/25), not from the rows between the candidate's archive position
and the end of the archive (cost 176). -/
theorem claim8_truncation_bug :
    filterGames archC 77 = [⟨1, 8, 77, 40, ""⟩] ∧
    (predValues archC 8 10).length = archC.length - 8 ∧
    loss_function archC ("white") 0 (1/100) 0 10 = 176/25 ∧
    specCost archC ("white") 0 (1/100) 8 10 = 176 ∧
    loss_function archC ("white") 0 (1/100) 0 10 ≠ specCost archC ("white") 0 (1/100) 8 10 := by
  refine ⟨by decide, by decide, ?_, ?_, ?_⟩
  · norm_num [loss_function, npMean, predValues, archC]
  · norm_num [specCost, npMean, archC]
  · norm_num [loss_function, specCost, npMean, predValues, archC]

/-- Claim C5, counterexample to "returning the 1–4 completed rounds": on
`archB` (one 5-ply game) every round selects the unique matching row, the
fifth round selects the final ply of the game, and the successor lookup that
runs after that fifth selection fails — so the session ends with
`ContinuationExhausted` *and* 5 completed rounds, not 1–4. -/
theorem claim5_counterexample :
    (dijkstra_search archB ("white") 0 (1/100) 100).2.2 =
      some SearchError.ContinuationExhausted ∧
    (dijkstra_search archB ("white") 0 (1/100) 100).2.1.length = 5 := by
  exact ⟨rfl, rfl⟩

/-- Claim C7: the search is deterministic — identical archive snapshot,
preference, target evaluation, regularization and start fingerprint yield
identical output sequences (no randomized tie-breaking anywhere in the
round loop). -/
theorem claim7_determinism (g1 g2 : List Row) (p1 p2 : String)
    (cp1 cp2 lam1 lam2 : Rat) (bs1 bs2 : Int)
    (hg : g1 = g2) (hp : p1 = p2) (hcp : cp1 = cp2) (hlam : lam1 = lam2)
    (hbs : bs1 = bs2) :
    dijkstra_search g1 p1 cp1 lam1 bs1 = dijkstra_search g2 p2 cp2 lam2 bs2 := by
  subst hg
  subst hp
  subst hcp
  subst hlam
  subst hbs
  rfl

/-- Claim C7 witness: two runs on `archB` with equal inputs coincide. -/
theorem claim7_determinism_witness :
    dijkstra_search archB ("white") 0 (1/100) 100 =
      dijkstra_search archB ("white") 0 (1/100) 100 :=
  claim7_determinism archB archB ("white") ("white") 0 0 (1/100) (1/100) 100 100
    rfl rfl rfl rfl rfl

/-- Claim C10: every `user_preference` other than the exact string
`"black"` leaves the mean un-negated — the cost equals the un-negated
formula and coincides with the behaviour for the default `"white"`. -/
theorem claim10_preference_default (games : List Row) (cp lam : Rat)
    (s depth : Nat) (pref : String) (h : pref ≠ "black") :
    loss_function games pref cp lam s depth =
      (npMean (predValues games s depth) - cp) ^ 2 / (depth : Rat) +
        lam * npMean (predValues games s depth) ^ 2 ∧
    loss_function games pref cp lam s depth =
      loss_function games ("white") cp lam s depth := by
  constructor
  · simp [loss_function, h]
  · simp [loss_function, h]

/-- Claim C10 witness: the capitalized string "Black" is not the exact
string "black", so it is treated as favoring white. -/
theorem claim10_preference_default_witness :
    loss_function archA ("Black") 0 (1/100) 0 10 =
      (npMean (predValues archA 0 10) - 0) ^ 2 / (10 : Rat) +
        (1/100) * npMean (predValues archA 0 10) ^ 2 ∧
    loss_function archA ("Black") 0 (1/100) 0 10 =
      loss_function archA ("white") 0 (1/100) 0 10 :=
  claim10_preference_default archA 0 (1/100) 0 10 ("Black") (by decide)

/-! ## Selection, filter-failure, advance and frame properties -/

/-- Claim C2: in each round, among the archive rows whose `board_sum` equals
the current fingerprint, the heap pop selects a filtered position of
minimum cost, ties broken by the earliest position (first-seen wins); the
filtered frame is a sublist of the archive, so filtered order is original
archive order. -/
theorem claim2_min_cost_selection (games : List Row) (pref : String)
    (cp lam : Rat) (bs : Int) (hne : filterGames games bs ≠ []) :
    ∃ i, heapSelect (roundCosts games pref cp lam (filterGames games bs)) = some i ∧
      i < (filterGames games bs).length ∧
      (∀ j, j < (filterGames games bs).length →
        loss_function games pref cp lam i 10 ≤ loss_function games pref cp lam j 10) ∧
      (∀ j, j < i →
        loss_function games pref cp lam i 10 < loss_function games pref cp lam j 10) ∧
      (filterGames games bs).Sublist games := by
  have hlen : (roundCosts games pref cp lam (filterGames games bs)).length
      = (filterGames games bs).length := roundCosts_length games pref cp lam _
  have hcne : roundCosts games pref cp lam (filterGames games bs) ≠ [] := by
    intro hc
    apply hne
    have hlen0 := congrArg List.length hc
    rw [hlen] at hlen0
    exact List.length_eq_zero.mp hlen0
  cases hh : heapSelect (roundCosts games pref cp lam (filterGames games bs)) with
  | none => exact absurd ((heapSelect_eq_none_iff _).mp hh) hcne
  | some i =>
    obtain ⟨hilen, hmin, hfirst⟩ := heapSelect_spec _ i hh
    rw [hlen] at hilen
    refine ⟨i, rfl, hilen, ?_, ?_, List.filter_sublist games⟩
    · intro j hj
      have h1 := hmin j (by rw [hlen]; exact hj)
      rwa [roundCosts_getD games pref cp lam _ i hilen,
        roundCosts_getD games pref cp lam _ j hj] at h1
    · intro j hj
      have h1 := hfirst j hj
      rwa [roundCosts_getD games pref cp lam _ i hilen,
        roundCosts_getD games pref cp lam _ j (lt_trans hj hilen)] at h1

/-- Claim C2 witness: on `archB` with fingerprint 100 the filter is
nonempty and the minimum-cost first-seen selection exists. -/
theorem claim2_min_cost_selection_witness :
    ∃ i, heapSelect (roundCosts archB ("white") 0 (1/100) (filterGames archB 100)) = some i ∧
      i < (filterGames archB 100).length ∧
      (∀ j, j < (filterGames archB 100).length →
        loss_function archB ("white") 0 (1/100) i 10 ≤ loss_function archB ("white") 0 (1/100) j 10) ∧
      (∀ j, j < i →
        loss_function archB ("white") 0 (1/100) i 10 < loss_function archB ("white") 0 (1/100) j 10) ∧
      (filterGames archB 100).Sublist archB :=
  claim2_min_cost_selection archB ("white") 0 (1/100) 100 (by decide)

/-- Claim C4: whenever the current fingerprint matches zero archive rows,
the round fails with `NoCandidates` and the session returns exactly the
already-accumulated rounds; started from such a fingerprint, the whole
search returns zero completed rounds. -/
theorem claim4_no_candidates (games : List Row) (pref : String) (cp lam : Rat)
    (bs : Int) (h : filterGames games bs = []) :
    (∀ n acc, searchLoop games pref cp lam (n + 1) bs acc =
      (games, acc, some SearchError.NoCandidates)) ∧
    dijkstra_search games pref cp lam bs =
      (games, [], some SearchError.NoCandidates) := by
  have hsel : heapSelect (roundCosts games pref cp lam (filterGames games bs)) = none := by
    rw [h]
    rfl
  have key : ∀ n acc, searchLoop games pref cp lam (n + 1) bs acc =
      (games, acc, some SearchError.NoCandidates) := by
    intro n acc
    simp only [searchLoop, hsel]
  exact ⟨key, key 4 []⟩

/-- Claim C4 witness: fingerprint 999 matches no row of `archB`, so the
search fails immediately with zero completed rounds. -/
theorem claim4_no_candidates_witness :
    (∀ n acc, searchLoop archB ("white") 0 (1/100) (n + 1) 999 acc =
      (archB, acc, some SearchError.NoCandidates)) ∧
    dijkstra_search archB ("white") 0 (1/100) 999 =
      (archB, [], some SearchError.NoCandidates) :=
  claim4_no_candidates archB ("white") 0 (1/100) 999 (by decide)

/-- Claim C5 as amended: after a round's selection the search advances the
fingerprint to that of the record at `(game_id, ply + 1)` in the selected
continuation's game when such a successor row exists; when it does not, the
session fails with `ContinuationExhausted` immediately after recording that
round — the completed rounds (between 1 and 5, since the successor lookup
also runs after the fifth round's selection) are returned and no other
candidate is retried. -/
theorem claim5_continuation_exhausted (games : List Row) (pref : String)
    (cp lam : Rat) (n : Nat) (bs : Int) (acc : List RoundResult) (i : Nat)
    (hsel : heapSelect (roundCosts games pref cp lam (filterGames games bs)) = some i) :
    (advance games ((filterGames games bs).getD i defaultRow) = none →
      searchLoop games pref cp lam (n + 1) bs acc =
        (games, acc ++ [mkResult ((filterGames games bs).getD i defaultRow)],
          some SearchError.ContinuationExhausted)) ∧
    (∀ bs', advance games ((filterGames games bs).getD i defaultRow) = some bs' →
      searchLoop games pref cp lam (n + 1) bs acc =
        searchLoop games pref cp lam n bs'
          (acc ++ [mkResult ((filterGames games bs).getD i defaultRow)])) := by
  constructor
  · intro hadv
    simp only [searchLoop, hsel, hadv]
  · intro bs' hadv
    simp only [searchLoop, hsel, hadv]

/-- Claim C5 witness: in `archB` the row with board sum 104 is the final
ply of its game; the round that selects it records it and then fails with
`ContinuationExhausted`. -/
theorem claim5_continuation_exhausted_witness :
    searchLoop archB ("white") 0 (1/100) 1 104 [] =
      (archB, [mkResult ((filterGames archB 104).getD 0 defaultRow)],
        some SearchError.ContinuationExhausted) :=
  (claim5_continuation_exhausted archB ("white") 0 (1/100) 0 104 [] 0 rfl).1 rfl

/-- Helper for Claim C9: the games table held by the session is returned
unchanged by every round, and each round appends at most one result. -/
theorem searchLoop_spec (games : List Row) (pref : String) (cp lam : Rat) (n : Nat) :
    ∀ bs acc, (searchLoop games pref cp lam n bs acc).1 = games ∧
      (searchLoop games pref cp lam n bs acc).2.1.length ≤ acc.length + n := by
  induction n with
  | zero =>
    intro bs acc
    exact ⟨rfl, by simp [searchLoop]⟩
  | succ m ih =>
    intro bs acc
    cases hsel : heapSelect (roundCosts games pref cp lam (filterGames games bs)) with
    | none =>
      simp only [searchLoop, hsel]
      refine ⟨trivial, ?_⟩
      show acc.length ≤ acc.length + (m + 1)
      omega
    | some i =>
      cases hadv : advance games ((filterGames games bs).getD i defaultRow) with
      | none =>
        simp only [searchLoop, hsel, hadv]
        refine ⟨trivial, ?_⟩
        show (acc ++ [mkResult ((filterGames games bs).getD i defaultRow)]).length ≤
          acc.length + (m + 1)
        simp only [List.length_append, List.length_cons, List.length_nil]
        omega
      | some bs' =>
        simp only [searchLoop, hsel, hadv]
        have h2 := ih bs' (acc ++ [mkResult ((filterGames games bs).getD i defaultRow)])
        refine ⟨h2.1, ?_⟩
        have h3 := h2.2
        simp only [List.length_append, List.length_cons, List.length_nil] at h3
        omega

/-- Claim C9: for every archive snapshot and every input, the search
returns at most 5 result entries and hands back the games table unchanged
(no round of the session mutates the loaded snapshot). -/
theorem claim9_frame_and_bound (games : List Row) (pref : String)
    (cp lam : Rat) (bs : Int) :
    (dijkstra_search games pref cp lam bs).1 = games ∧
    (dijkstra_search games pref cp lam bs).2.1.length ≤ 5 := by
  have h := searchLoop_spec games pref cp lam 5 bs []
  exact ⟨h.1, by simpa using h.2⟩

/-! ## Learning-moment selector properties -/

theorem absDiffs_eq_nil (l : List Int) (h : l.length < 2) : absDiffs l = [] := by
  cases l with
  | nil => rfl
  | cons a t =>
    cases t with
    | nil => rfl
    | cons b rest =>
      simp only [List.length_cons] at h
      omega

theorem getD_take_map_cpOrZero (positions : List Position) (j : Nat)
    (hj : j < (positions.take 12).length) :
    ((positions.take 12).map cpOrZero).getD j 0 =
      cpOrZero (positions.getD j defaultPosition) := by
  have hj12 : j < 12 := by
    simp only [List.length_take] at hj
    omega
  have hjlen : j < positions.length := by
    simp only [List.length_take] at hj
    omega
  rw [List.getD_eq_getElem?_getD, List.getElem?_map]
  rw [List.getElem?_take_of_lt hj12]
  rw [List.getElem?_eq_getElem hjlen]
  rw [List.getD_eq_getElem?_getD, List.getElem?_eq_getElem hjlen]
  rfl

/-- The net change at index `j` is the absolute difference between the
(missing-as-zero) evaluations of plies `j` and `j + 1`. -/
theorem net_change_eq (positions : List Position) (j : Nat)
    (hj : j + 1 < (positions.take 12).length) :
    (absDiffs ((positions.take 12).map cpOrZero)).getD j 0 =
      |cpOrZero (positions.getD (j + 1) defaultPosition) -
        cpOrZero (positions.getD j defaultPosition)| := by
  rw [absDiffs_getD _ j (by simpa using hj)]
  rw [getD_take_map_cpOrZero positions (j + 1) hj,
    getD_take_map_cpOrZero positions j (by omega)]

/-- Claim C3: with at least two plies available, the selector looks only at
the first 12 plies, computes the absolute successive differences of the
missing-as-zero evaluations, takes the first index attaining the maximum
difference, and returns the fingerprint and (raw) evaluation of the
position at that index together with the index. -/
theorem claim3_learning_moment (positions : List Position)
    (h : 2 ≤ positions.length) :
    ∃ best_index,
      find_best_learning_moment positions =
        Except.ok ((positions.getD best_index defaultPosition).bitboard_integers,
          (positions.getD best_index defaultPosition).centipawn, best_index) ∧
      best_index + 1 < (positions.take 12).length ∧
      (∀ j, j + 1 < (positions.take 12).length →
        |cpOrZero (positions.getD (j + 1) defaultPosition) -
            cpOrZero (positions.getD j defaultPosition)| ≤
          |cpOrZero (positions.getD (best_index + 1) defaultPosition) -
            cpOrZero (positions.getD best_index defaultPosition)|) ∧
      (∀ j, j < best_index →
        |cpOrZero (positions.getD (j + 1) defaultPosition) -
            cpOrZero (positions.getD j defaultPosition)| <
          |cpOrZero (positions.getD (best_index + 1) defaultPosition) -
            cpOrZero (positions.getD best_index defaultPosition)|) := by
  have htlen : (positions.take 12).length = min 12 positions.length := by
    simp [List.length_take]
  have hvlen : ((positions.take 12).map cpOrZero).length = min 12 positions.length := by
    simp [List.length_map, htlen]
  have hdne : absDiffs ((positions.take 12).map cpOrZero) ≠ [] := by
    intro hnil
    have hlen0 := absDiffs_length ((positions.take 12).map cpOrZero)
    rw [hnil] at hlen0
    simp only [List.length_nil] at hlen0
    omega
  cases hsel : argmaxFirst (absDiffs ((positions.take 12).map cpOrZero)) with
  | none => exact absurd ((argmaxFirst_eq_none_iff _).mp hsel) hdne
  | some i =>
    obtain ⟨hilen, hmax, hfirst⟩ := argmaxFirst_spec _ i hsel
    rw [absDiffs_length] at hilen
    have hi1 : i + 1 < (positions.take 12).length := by omega
    refine ⟨i, ?_, hi1, ?_, ?_⟩
    · simp only [find_best_learning_moment, hsel]
    · intro j hj
      have h1 := hmax j (by rw [absDiffs_length]; omega)
      rwa [net_change_eq positions j hj, net_change_eq positions i hi1] at h1
    · intro j hj
      have h1 := hfirst j hj
      rwa [net_change_eq positions j (by omega), net_change_eq positions i hi1] at h1

/-- Claim C3 witness: on a three-ply sequence with evaluations 0, 10, 100
the successive swings are 10 and then 90, so the selector picks index 1
and returns that position's data. -/
theorem claim3_learning_moment_witness :
    ∃ best_index,
      find_best_learning_moment
          [⟨11, some 0⟩, ⟨22, some 10⟩, ⟨33, some 100⟩] =
        Except.ok ((([⟨11, some 0⟩, ⟨22, some 10⟩, ⟨33, some 100⟩] :
            List Position).getD best_index defaultPosition).bitboard_integers,
          (([⟨11, some 0⟩, ⟨22, some 10⟩, ⟨33, some 100⟩] :
            List Position).getD best_index defaultPosition).centipawn, best_index) ∧
      best_index + 1 <
        (([⟨11, some 0⟩, ⟨22, some 10⟩, ⟨33, some 100⟩] : List Position).take 12).length ∧
      (∀ j, j + 1 <
          (([⟨11, some 0⟩, ⟨22, some 10⟩, ⟨33, some 100⟩] : List Position).take 12).length →
        |cpOrZero (([⟨11, some 0⟩, ⟨22, some 10⟩, ⟨33, some 100⟩] :
              List Position).getD (j + 1) defaultPosition) -
            cpOrZero (([⟨11, some 0⟩, ⟨22, some 10⟩, ⟨33, some 100⟩] :
              List Position).getD j defaultPosition)| ≤
          |cpOrZero (([⟨11, some 0⟩, ⟨22, some 10⟩, ⟨33, some 100⟩] :
              List Position).getD (best_index + 1) defaultPosition) -
            cpOrZero (([⟨11, some 0⟩, ⟨22, some 10⟩, ⟨33, some 100⟩] :
              List Position).getD best_index defaultPosition)|) ∧
      (∀ j, j < best_index →
        |cpOrZero (([⟨11, some 0⟩, ⟨22, some 10⟩, ⟨33, some 100⟩] :
              List Position).getD (j + 1) defaultPosition) -
            cpOrZero (([⟨11, some 0⟩, ⟨22, some 10⟩, ⟨33, some 100⟩] :
              List Position).getD j defaultPosition)| <
          |cpOrZero (([⟨11, some 0⟩, ⟨22, some 10⟩, ⟨33, some 100⟩] :
              List Position).getD (best_index + 1) defaultPosition) -
            cpOrZero (([⟨11, some 0⟩, ⟨22, some 10⟩, ⟨33, some 100⟩] :
              List Position).getD best_index defaultPosition)|) :=
  claim3_learning_moment [⟨11, some 0⟩, ⟨22, some 10⟩, ⟨33, some 100⟩] (by decide)

/-- Claim C6: with fewer than 2 plies the selector fails with
`InsufficientHistory` (the `np.argmax` of the empty difference array). -/
theorem claim6_insufficient_history (positions : List Position)
    (h : positions.length < 2) :
    find_best_learning_moment positions =
      Except.error SearchError.InsufficientHistory := by
  have hd : absDiffs ((positions.take 12).map cpOrZero) = [] := by
    apply absDiffs_eq_nil
    simp only [List.length_map, List.length_take]
    omega
  simp only [find_best_learning_moment, hd]
  rfl

/-- Claim C6 witness: a single-ply user sequence fails with
`InsufficientHistory`. -/
theorem claim6_insufficient_history_witness :
    find_best_learning_moment [⟨5, some 3⟩] =
      Except.error SearchError.InsufficientHistory :=
  claim6_insufficient_history [⟨5, some 3⟩] (by decide)
